import Mathlib

/-!
Shallow embedding of the URL-shortener backend
(`src/BackendTestSubmission/services/validationService.js`,
`src/BackendTestSubmission/services/urlService.js` and
`src/BackendTestSubmission/routes/urlRoutes.js` / `urlController.js`),
together with proofs of the specification's claims about it.

Modelling conventions:
* JavaScript timestamps (`Date.now()`, ISO strings) are milliseconds-since-epoch
  naturals; the two clock reads inside one handler are modelled as the single
  `now` parameter of that handler.
* The `urlStorage` `Map` is an association list in insertion order; `Map.get`,
  `Map.has`, `Map.set` and `Map.delete` become `mapGet`, `mapHas`, `mapSet`
  and `mapDelete`.
* JavaScript values that may be `undefined`/`null` are `Option`s; the truthiness
  test `!s` on a string argument is `jsStrFalsy` (absent or empty string), and
  `a || b` on strings is `jsOr`.
-/

/-- A recorded click (`clickData` built in `redirectToUrl`). -/
structure ClickEvent where
  timestamp : Nat
  referrer : String
  location : String
  userAgent : String
  ip : String
deriving DecidableEq, Repr

/-- A stored short-link record (`urlEntry` built in `createShortUrl`). -/
structure UrlEntry where
  shortcode : String
  originalUrl : String
  createdAt : Nat
  expiresAt : Nat
  clicks : List ClickEvent
deriving DecidableEq, Repr

/-- The in-memory `urlStorage` `Map`, as an association list in insertion order. -/
abbrev Registry := List (String × UrlEntry)

/-- `Map.prototype.get`: first entry with the given key. -/
def mapGet : Registry → String → Option UrlEntry
  | [], _ => none
  | (k, v) :: rest, key => if k = key then some v else mapGet rest key

/-- `Map.prototype.has`. -/
def mapHas (s : Registry) (key : String) : Bool :=
  (mapGet s key).isSome

/-- `Map.prototype.set`: replace the entry in place if the key is present,
otherwise append at the end (JS `Map` keeps insertion order). -/
def mapSet : Registry → String → UrlEntry → Registry
  | [], key, v => [(key, v)]
  | (k, v0) :: rest, key, v =>
      if k = key then (k, v) :: rest else (k, v0) :: mapSet rest key v

/-- `Map.prototype.delete`: remove the entry with the given key. -/
def mapDelete : Registry → String → Registry
  | [], _ => []
  | (k, v0) :: rest, key =>
      if k = key then rest else (k, v0) :: mapDelete rest key

/-- JS truthiness of a possibly-absent string: `undefined`, `null` and `""`
are falsy. -/
def jsStrFalsy : Option String → Bool
  | none => true
  | some s => s.isEmpty

/-- JS `a || b` on a possibly-absent string `a` with string default `b`. -/
def jsOr (v : Option String) (d : String) : String :=
  match v with
  | some s => if s.isEmpty then d else s
  | none => d

/-!
JavaScript string primitives (`toLowerCase`, `trim`, `includes`, `split`,
`startsWith`, `endsWith`, `join`) re-implemented by structural recursion on
the character list, so that concrete instances evaluate by kernel reduction.
Each is the straightforward character-wise semantics of the JS method it
stands for.
-/

/-- JS `s.toLowerCase()` (character-wise). -/
def lowerStr (s : String) : String :=
  String.mk (s.data.map Char.toLower)

/-- Drop leading whitespace characters. -/
def dropLeadingWs : List Char → List Char
  | [] => []
  | c :: cs => if c.isWhitespace then dropLeadingWs cs else c :: cs

/-- JS `s.trim()`: drop whitespace from both ends. -/
def trimStr (s : String) : String :=
  String.mk ((dropLeadingWs (dropLeadingWs s.data).reverse).reverse)

/-- JS `s.includes(c)` for a single character. -/
def strContainsChar (s : String) (c : Char) : Bool :=
  s.data.contains c

/-- Whether the first list is a prefix of the second. -/
def leadsWith : List Char → List Char → Bool
  | [], _ => true
  | _ :: _, [] => false
  | p :: ps, c :: cs => p == c && leadsWith ps cs

/-- JS `s.startsWith(pat)`. -/
def strStartsWith (s pat : String) : Bool :=
  leadsWith pat.data s.data

/-- JS `s.endsWith(pat)`. -/
def strEndsWith (s pat : String) : Bool :=
  leadsWith pat.data.reverse s.data.reverse

/-- Splitter loop for `splitOnStr`; `fuel` bounds the recursion structurally
and `s.length + 1` is always enough. -/
def splitOnAuxL (sep : List Char) : Nat → List Char → List Char → List (List Char)
  | 0, acc, rest => [acc.reverse ++ rest]
  | fuel + 1, acc, rest =>
    if leadsWith sep rest then
      acc.reverse :: splitOnAuxL sep fuel [] (rest.drop sep.length)
    else
      match rest with
      | [] => [acc.reverse]
      | c :: cs => splitOnAuxL sep fuel (c :: acc) cs

/-- JS `s.split(sep)` for a nonempty separator (the uses below always pass
nonempty separators; an empty separator returns the string whole). -/
def splitOnStr (s sep : String) : List String :=
  if sep.isEmpty then [s]
  else (splitOnAuxL sep.data (s.data.length + 1) [] s.data).map String.mk

/-- JS `parts.join(sep)`. -/
def joinWith (sep : String) : List String → String
  | [] => ""
  | [x] => x
  | x :: y :: xs => x ++ sep ++ joinWith sep (y :: xs)

/-! ## Validators (`services/validationService.js`) -/

/-- Result object of `validateShortcode`. -/
structure ShortcodeValidation where
  isValid : Bool
  error : Option String
deriving DecidableEq, Repr

/-- `reservedWords` from `validateShortcode`. -/
def reservedWords : List String :=
  ["api", "admin", "www", "shorturls", "health", "stats"]

/-- The regex test `/^[a-zA-Z0-9]+$/.test(s)`: nonempty, all chars in
`[a-zA-Z0-9]`. -/
def alphanumericTest (s : String) : Bool :=
  !s.isEmpty && s.data.all Char.isAlphanum

/-- `validateShortcode` from `validationService.js` lines 4-43. -/
def validateShortcode (shortcode : String) : ShortcodeValidation :=
  if shortcode.isEmpty then
    ⟨false, some "Shortcode cannot be empty"⟩
  else if shortcode.length < 4 || shortcode.length > 10 then
    ⟨false, some "Shortcode must be between 4 and 10 characters long"⟩
  else if !alphanumericTest shortcode then
    ⟨false, some "Shortcode can only contain alphanumeric characters (a-z, A-Z, 0-9)"⟩
  else if reservedWords.contains (lowerStr shortcode) then
    ⟨false, some "Shortcode uses a reserved word. Please choose a different shortcode."⟩
  else
    ⟨true, none⟩

/-- Result object of `validateUrl`. -/
structure UrlValidation where
  isValid : Bool
  error : Option String
  normalizedUrl : Option String
deriving DecidableEq, Repr

/-- Modelled from the spec: the parse `new URL(trimmedUrl)` is performed by the
JavaScript host, whose URL parser is not part of this repository. It is
modelled minimally, covering the inputs the validator feeds it: the scheme is
the text before the first `"://"` (the constructor throwing on schemeless
input is `none`), and the hostname is the authority with any userinfo, port,
path, query and fragment stripped, lowercased as WHATWG prescribes. Returns
`(protocol, hostname)` in the shape `urlObj.protocol` / `urlObj.hostname`. -/
def parseUrl (s : String) : Option (String × String) :=
  match splitOnStr s "://" with
  | [] => none
  | [_] => none
  | scheme :: rest1 :: restMore =>
    if scheme.isEmpty then none
    else
      let remainder := joinWith "://" (rest1 :: restMore)
      let afterPath := (splitOnStr remainder "/").headD ""
      let afterQuery := (splitOnStr afterPath "?").headD ""
      let authority := (splitOnStr afterQuery "#").headD ""
      let hostPort := (splitOnStr authority "@").getLastD authority
      let hostname := (splitOnStr hostPort ":").headD ""
      some (lowerStr scheme ++ ":", lowerStr hostname)

/-- The regex test `/^[a-zA-Z0-9.-]+$/.test(hostname)`. -/
def hostnameTest (s : String) : Bool :=
  !s.isEmpty && s.data.all (fun c => c.isAlphanum || c == '.' || c == '-')

/-- `validateUrl` from `validationService.js` lines 48-117. -/
def validateUrl (url : Option String) : UrlValidation :=
  if jsStrFalsy url then
    ⟨false, some "URL is required", none⟩
  else
    let u := url.getD ""
    let trimmedUrl := trimStr u
    if strContainsChar trimmedUrl ' ' then
      ⟨false, some "URL cannot contain spaces", none⟩
    else
      match parseUrl trimmedUrl with
      | none => ⟨false, some "Invalid URL format", none⟩
      | some (protocol, hostname) =>
        if !(["http:", "https:"].contains protocol) then
          ⟨false, some "URL must use http:// or https:// protocol", none⟩
        else if hostname.isEmpty then
          ⟨false, some "URL must have a valid hostname", none⟩
        else if !hostnameTest hostname || !(strContainsChar hostname '.') then
          ⟨false, some "URL must have a valid domain name", none⟩
        else if strStartsWith hostname "-" || strEndsWith hostname "-"
            || strStartsWith hostname "." || strEndsWith hostname "." then
          ⟨false, some "URL domain name format is invalid", none⟩
        else
          ⟨true, none, some trimmedUrl⟩

/-- The JSON value arriving in `req.body.validity`, classified by the checks
`validateValidity` performs: `absent` is `undefined` or `null`; `intVal n` is
a number with `Number.isInteger` true; `nonIntNum` is any other number (and
any other non-string value, all of which fail `Number.isInteger`); `strVal`
is a string (which also fails `Number.isInteger` — no parsing happens). -/
inductive ValidityInput where
  | absent
  | intVal (n : Int)
  | nonIntNum
  | strVal (s : String)
deriving DecidableEq, Repr

/-- Result object of `validateValidity`; `value` is absent on failure. -/
structure ValidityValidation where
  isValid : Bool
  error : Option String
  value : Option Int
deriving DecidableEq, Repr

/-- `validateValidity` from `validationService.js` lines 122-152. -/
def validateValidity (validity : ValidityInput) : ValidityValidation :=
  match validity with
  | .absent => ⟨true, none, some 30⟩
  | .intVal n =>
      if n < 1 || n > 43200 then
        ⟨false, some "Validity must be between 1 and 43200 minutes (30 days)", none⟩
      else
        ⟨true, none, some n⟩
  | .nonIntNum => ⟨false, some "Validity must be an integer", none⟩
  | .strVal _ => ⟨false, some "Validity must be an integer", none⟩

/-! ## URL service (`services/urlService.js`) -/

/-- Modelled from the spec: `generateShortcode` calls `nanoid(6)` from the
external `nanoid` package, which is not part of the code under `src/`. The
spec describes it as producing "a 6-character code drawn from `[a-zA-Z0-9]`
using a uniform random source"; the random source is modelled as a stream
`draw` of indices, reduced modulo the 62-character alphanumeric alphabet. -/
def alphanumAlphabet : List Char :=
  "abcdefghijklmnopqrstuvwxyzABCDEFGHIJKLMNOPQRSTUVWXYZ0123456789".data

/-- Modelled from the spec: one `nanoid(6)` call, the `call`-th of the run,
consuming six draws from the random stream. -/
def nanoidSpec (draw : Nat → Nat) (call : Nat) : String :=
  String.mk ((List.range 6).map (fun j => alphanumAlphabet.getD (draw (6 * call + j) % 62) 'a'))

/-- `generateShortcode` from `urlService.js` lines 167-174: the `do`/`while`
loop regenerating until `urlStorage.has(shortcode)` is false. The source loop
is unbounded; `fuel` bounds it here (the spec allows the caller to cap
retries), with `none` for a run that never leaves the registry within the
budget. -/
def generateShortcodeAux (storage : Registry) (draw : Nat → Nat) : Nat → Nat → Option String
  | _, 0 => none
  | call, fuel + 1 =>
    let shortcode := nanoidSpec draw call
    if mapHas storage shortcode then generateShortcodeAux storage draw (call + 1) fuel
    else some shortcode

/-- `shortcodeExists` from `urlService.js` lines 179-181. -/
def shortcodeExists (storage : Registry) (shortcode : String) : Bool :=
  mapHas storage shortcode

/-- `storeUrl` from `urlService.js` lines 186-188. -/
def storeUrl (storage : Registry) (urlEntry : UrlEntry) : Registry :=
  mapSet storage urlEntry.shortcode urlEntry

/-- `getUrl` from `urlService.js` lines 193-195. -/
def getUrl (storage : Registry) (shortcode : String) : Option UrlEntry :=
  mapGet storage shortcode

/-- `recordClick` from `urlService.js` lines 200-206: if an entry is present,
push the click and re-store the entry; otherwise do nothing. The JS function
body contains no `return` statement, so its value is `undefined` on every
path; that return value is the second component, `none` standing for
`undefined` (a surfaced error name would be `some`). -/
def recordClick (storage : Registry) (shortcode : String) (clickData : ClickEvent) :
    Registry × Option String :=
  match mapGet storage shortcode with
  | some urlEntry =>
      (mapSet storage shortcode { urlEntry with clicks := urlEntry.clicks ++ [clickData] }, none)
  | none => (storage, none)

/-- `cleanupExpiredUrls` from `urlService.js` lines 218-233: collect the
shortcodes of entries with `expiresAt < now`, delete each, return the count. -/
def cleanupExpiredUrls (storage : Registry) (now : Nat) : Registry × Nat :=
  let expiredShortcodes :=
    (storage.filter (fun kv => decide (kv.2.expiresAt < now))).map Prod.fst
  (expiredShortcodes.foldl mapDelete storage, expiredShortcodes.length)

/-! ## Controllers (`controllers/urlController.js`) -/

/-- The HTTP responses the three handlers can produce: an error body
`{error, message}`, a `res.redirect(302, url)`, the `201 {shortLink, expiry}`
creation body, or the `200` statistics body. -/
structure ClickView where
  timestamp : Nat
  referrer : String
  location : String
  userAgent : String
deriving DecidableEq, Repr

/-- The `stats` object assembled by `getUrlStats`. -/
structure StatsView where
  shortcode : String
  originalUrl : String
  createdAt : Nat
  expiresAt : Nat
  totalClicks : Nat
  clicks : List ClickView
deriving DecidableEq, Repr

inductive HttpResponse where
  | json (status : Nat) (error : String) (message : String)
  | redirect (status : Nat) (location : String)
  | created (status : Nat) (shortLink : String) (expiry : Nat)
  | statsBody (status : Nat) (body : StatsView)
deriving DecidableEq, Repr

/-- The request body of `POST /shorturls` (`req.body` destructured in
`createShortUrl`). -/
structure CreateBody where
  url : Option String
  validity : ValidityInput
  shortcode : Option String
deriving Repr

/-- `createShortUrl` from `urlController.js` lines 53-149. `now` is the
clock; `genCode` is the code `urlService.generateShortcode()` would return on
the no-custom-shortcode path (the random generator's output passed in as
state); `port` is `process.env.PORT || 3100`. -/
def createShortUrl (storage : Registry) (body : CreateBody) (now : Nat)
    (genCode : String) (port : String) : Registry × HttpResponse :=
  if jsStrFalsy body.url then
    (storage, .json 400 "Validation Error" "URL is required")
  else
    let urlValidation := validateUrl body.url
    if !urlValidation.isValid then
      (storage, .json 400 "Validation Error" (urlValidation.error.getD ""))
    else
      let validityValidation := validateValidity body.validity
      if !validityValidation.isValid then
        (storage, .json 400 "Validation Error" (validityValidation.error.getD ""))
      else
        let validityMinutes := validityValidation.value.getD 0
        let finish : String → Registry × HttpResponse := fun finalShortcode =>
          let expiresAt := now + validityMinutes.toNat * 60 * 1000
          let urlEntry : UrlEntry :=
            { shortcode := finalShortcode
              originalUrl := body.url.getD ""
              createdAt := now
              expiresAt := expiresAt
              clicks := [] }
          (storeUrl storage urlEntry,
            .created 201 ("http://localhost:" ++ port ++ "/" ++ finalShortcode) expiresAt)
        if jsStrFalsy body.shortcode then
          finish genCode
        else
          let sc := body.shortcode.getD ""
          let shortcodeValidation := validateShortcode sc
          if !shortcodeValidation.isValid then
            (storage, .json 400 "Validation Error" (shortcodeValidation.error.getD ""))
          else if shortcodeExists storage sc then
            (storage, .json 409 "Conflict" "Shortcode already exists. Please choose a different one.")
          else
            finish sc

/-- The request metadata `redirectToUrl` reads: `req.get('User-Agent')`,
`req.ip || req.connection.remoteAddress`, `req.get('Referer')`. -/
structure RequestInfo where
  userAgent : Option String
  ip : Option String
  referrer : Option String
deriving DecidableEq, Repr

/-- `ip.replace(/^.*:/, '')`: the greedy `^.*:` removes everything up to the
last colon; an ip with no colon is unchanged. -/
def afterLastColon (s : String) : String :=
  (splitOnStr s ":").getLastD s

/-- The `clickData` object built in `redirectToUrl` lines 180-201. The
external lookups are parameters: `geoLookup` is `geoip.lookup` (`none` for a
miss, otherwise the `city` and `country` fields, each possibly absent);
`uaParse` is the `UAParser` result's `browser.name` and `browser.version`. -/
def buildClickData (geoLookup : String → Option (Option String × Option String))
    (uaParse : String → Option String × Option String)
    (now : Nat) (req : RequestInfo) : ClickEvent :=
  let userAgent := jsOr req.userAgent "Unknown"
  let ip := jsOr req.ip "Unknown"
  let referrer := jsOr req.referrer "Direct"
  let location :=
    match geoLookup ip with
    | some geo => jsOr geo.1 "Unknown" ++ ", " ++ jsOr geo.2 "Unknown"
    | none => "Unknown"
  let parsed := uaParse userAgent
  let browser := trimStr (jsOr parsed.1 "Unknown" ++ " " ++ jsOr parsed.2 "")
  { timestamp := now
    referrer := referrer
    location := location
    userAgent := browser
    ip := afterLastColon ip }

/-- `redirectToUrl` from `urlController.js` lines 154-217. -/
def redirectToUrl (geoLookup : String → Option (Option String × Option String))
    (uaParse : String → Option String × Option String)
    (storage : Registry) (shortcode : String) (now : Nat) (req : RequestInfo) :
    Registry × HttpResponse :=
  match getUrl storage shortcode with
  | none => (storage, .json 404 "Not Found" "Short URL not found")
  | some urlEntry =>
    if now > urlEntry.expiresAt then
      (storage, .json 410 "Gone" "Short URL has expired")
    else
      let clickData := buildClickData geoLookup uaParse now req
      ((recordClick storage shortcode clickData).1, .redirect 302 urlEntry.originalUrl)

/-- The per-click projection in `getUrlStats` lines 246-251. -/
def projectClick (click : ClickEvent) : ClickView :=
  { timestamp := click.timestamp
    referrer := click.referrer
    location := click.location
    userAgent := click.userAgent }

/-- `getUrlStats` from `urlController.js` lines 222-268. -/
def getUrlStats (storage : Registry) (shortcode : String) : Registry × HttpResponse :=
  match getUrl storage shortcode with
  | none => (storage, .json 404 "Not Found" "Short URL not found")
  | some urlEntry =>
    (storage,
      .statsBody 200
        { shortcode := urlEntry.shortcode
          originalUrl := urlEntry.originalUrl
          createdAt := urlEntry.createdAt
          expiresAt := urlEntry.expiresAt
          totalClicks := urlEntry.clicks.length
          clicks := urlEntry.clicks.map projectClick })

/-! ## Sample data used by concrete instantiations -/

def sampleClick : ClickEvent :=
  { timestamp := 1000
    referrer := "Direct"
    location := "Unknown"
    userAgent := "Chrome 1"
    ip := "127.0.0.1" }

def entryA : UrlEntry :=
  { shortcode := "abcd"
    originalUrl := "https://example.com/page"
    createdAt := 0
    expiresAt := 10000
    clicks := [] }

def entryB : UrlEntry :=
  { shortcode := "wxyz"
    originalUrl := "https://example.org/b"
    createdAt := 0
    expiresAt := 500
    clicks := [] }

def regA : Registry := [("abcd", entryA)]

def regB : Registry := [("abcd", entryA), ("wxyz", entryB)]

def geoNone : String → Option (Option String × Option String) := fun _ => none

def uaNone : String → Option String × Option String := fun _ => (none, none)

def reqA : RequestInfo := { userAgent := none, ip := none, referrer := none }

/-! ## Lemmas about the registry map -/

theorem mapGet_cons (k0 : String) (v0 : UrlEntry) (rest : Registry) (c : String) :
    mapGet ((k0, v0) :: rest) c = if k0 = c then some v0 else mapGet rest c := rfl

theorem mapSet_cons (k0 : String) (v0 : UrlEntry) (rest : Registry) (k : String) (v : UrlEntry) :
    mapSet ((k0, v0) :: rest) k v =
      if k0 = k then (k0, v) :: rest else (k0, v0) :: mapSet rest k v := rfl

theorem mapGet_mapSet (s : Registry) (k : String) (v : UrlEntry) (c : String) :
    mapGet (mapSet s k v) c = if c = k then some v else mapGet s c := by
  induction s with
  | nil =>
    by_cases h : k = c
    · subst h; simp [mapSet, mapGet_cons]
    · simp [mapSet, mapGet_cons, h, Ne.symm h]
  | cons kv rest ih =>
    obtain ⟨k0, v0⟩ := kv
    by_cases h0 : k0 = k
    · subst h0
      by_cases h : k0 = c
      · subst h; simp [mapSet_cons, mapGet_cons]
      · simp [mapSet_cons, mapGet_cons, h, Ne.symm h]
    · by_cases h : k0 = c
      · subst h
        simp [mapSet_cons, mapGet_cons, h0, fun hc : k0 = k => h0 hc]
      · simp [mapSet_cons, mapGet_cons, h0, h, ih]

theorem mapHas_mapSet (s : Registry) (k : String) (v : UrlEntry) (c : String) :
    mapHas (mapSet s k v) c = (c = k || mapHas s c) := by
  by_cases h : c = k <;> simp [mapHas, mapGet_mapSet, h]

/-- `mapGet` through a filter whose predicate looks only at the key. -/
theorem mapGet_filter_key (s : Registry) (q : String → Bool) (c : String) :
    mapGet (s.filter (fun kv => q kv.1)) c = if q c then mapGet s c else none := by
  induction s with
  | nil => by_cases h : q c <;> simp [mapGet, h]
  | cons kv rest ih =>
    obtain ⟨k0, v0⟩ := kv
    by_cases hk : k0 = c
    · subst hk
      by_cases hq : q k0 <;> simp [List.filter_cons, mapGet, hq, ih]
    · by_cases hq : q k0 <;> simp [List.filter_cons, mapGet, hq, ih, hk]

/-- With no duplicate keys, `mapDelete` is the filter dropping the key. -/
theorem mapDelete_eq_filter (s : Registry) (k : String)
    (h : (s.map Prod.fst).Nodup) :
    mapDelete s k = s.filter (fun kv => !(kv.1 == k)) := by
  induction s with
  | nil => simp [mapDelete]
  | cons kv rest ih =>
    obtain ⟨k0, v0⟩ := kv
    simp only [List.map_cons, List.nodup_cons] at h
    by_cases hk : k0 = k
    · subst hk
      have hrest : rest.filter (fun kv => !(kv.1 == k0)) = rest := by
        apply List.filter_eq_self.mpr
        intro a ha
        simp only [Bool.not_eq_eq_eq_not, Bool.not_true, beq_eq_false_iff_ne, ne_eq]
        intro hcontra
        exact h.1 (hcontra ▸ List.mem_map_of_mem Prod.fst ha)
      simp [mapDelete, List.filter_cons, hrest]
    · simp [mapDelete, List.filter_cons, hk, ih h.2]

/-- Keys of a filtered registry stay duplicate-free. -/
theorem nodup_keys_filter (s : Registry) (p : String × UrlEntry → Bool)
    (h : (s.map Prod.fst).Nodup) : ((s.filter p).map Prod.fst).Nodup :=
  List.Nodup.sublist ((List.filter_sublist s).map Prod.fst) h

/-- With no duplicate keys, folding `mapDelete` over a key list is the filter
dropping those keys. -/
theorem foldl_mapDelete_eq_filter (keys : List String) (s : Registry)
    (h : (s.map Prod.fst).Nodup) :
    keys.foldl mapDelete s = s.filter (fun kv => !(keys.contains kv.1)) := by
  induction keys generalizing s with
  | nil => simp
  | cons k ks ih =>
    have h1 : (((mapDelete s k).map Prod.fst)).Nodup := by
      rw [mapDelete_eq_filter s k h]
      exact nodup_keys_filter s _ h
    calc (k :: ks).foldl mapDelete s = ks.foldl mapDelete (mapDelete s k) := rfl
      _ = (mapDelete s k).filter (fun kv => !(ks.contains kv.1)) := ih _ h1
      _ = (s.filter (fun kv => !(kv.1 == k))).filter (fun kv => !(ks.contains kv.1)) := by
          rw [mapDelete_eq_filter s k h]
      _ = s.filter (fun kv => !((k :: ks).contains kv.1)) := by
          rw [List.filter_filter]
          apply List.filter_congr
          intro a _
          simp only [List.contains_cons, Bool.not_or, Bool.and_comm]

/-- A key-value pair found by `mapGet` is an element of the list. -/
theorem mapGet_mem (s : Registry) (c : String) (e : UrlEntry)
    (h : mapGet s c = some e) : (c, e) ∈ s := by
  induction s with
  | nil => simp [mapGet] at h
  | cons kv rest ih =>
    obtain ⟨k0, v0⟩ := kv
    rw [mapGet_cons] at h
    by_cases hk : k0 = c
    · rw [if_pos hk] at h
      obtain rfl := hk
      obtain rfl : v0 = e := by injection h
      exact List.mem_cons_self _ _
    · rw [if_neg hk] at h
      exact List.mem_cons_of_mem _ (ih h)

/-- With no duplicate keys, the element with key `c` is the one `mapGet`
finds. -/
theorem mem_eq_of_mapGet (s : Registry) (c : String) (e e2 : UrlEntry)
    (h : (s.map Prod.fst).Nodup) (hget : mapGet s c = some e)
    (hmem : (c, e2) ∈ s) : e2 = e := by
  induction s with
  | nil => simp at hmem
  | cons kv rest ih =>
    obtain ⟨k0, v0⟩ := kv
    simp only [List.map_cons, List.nodup_cons] at h
    rw [mapGet_cons] at hget
    rcases List.mem_cons.mp hmem with hhead | htail
    · have hk : k0 = c := (congrArg Prod.fst hhead).symm
      have he2 : e2 = v0 := congrArg Prod.snd hhead
      rw [if_pos hk] at hget
      obtain rfl : v0 = e := by injection hget
      exact he2
    · by_cases hk : k0 = c
      · exfalso
        apply h.1
        rw [hk]
        exact List.mem_map_of_mem Prod.fst htail
      · rw [if_neg hk] at hget
        exact ih h.2 hget htail

theorem length_filter_not {α : Type} (l : List α) (p : α → Bool) :
    (l.filter p).length + (l.filter (fun a => !(p a))).length = l.length := by
  induction l with
  | nil => simp
  | cons a l ih =>
    by_cases h : p a <;> simp [List.filter_cons, h, ← ih] <;> omega

/-! ## Claim C8: validateShortcode -/

/-- C8 counterexample: the claim says an empty or absent code is accepted as
"not provided", but `validateShortcode` rejects the empty string with an
error. -/
theorem validateShortcode_empty_rejected :
    validateShortcode "" = ⟨false, some "Shortcode cannot be empty"⟩ := rfl

/-- C8 (amended): `validateShortcode` rejects an empty code with the error
"Shortcode cannot be empty" (the create endpoint treats an empty or absent
code as not provided by never calling the validator on it); it succeeds
exactly when the code is 4 to 10 characters, alphanumeric only, and not
case-insensitively one of the reserved words. -/
theorem validateShortcode_iff (code : String) :
    (validateShortcode code).isValid = true ↔
      (4 ≤ code.length ∧ code.length ≤ 10
        ∧ code.data.all Char.isAlphanum = true
        ∧ reservedWords.contains (lowerStr code) = false) := by
  unfold validateShortcode
  by_cases h1 : code.isEmpty
  · have h0 : code = "" := (String.isEmpty_iff code).mp h1
    subst h0
    simp [h1]
  · rw [if_neg (by simp [h1])]
    by_cases h2 : code.length < 4 || code.length > 10
    · rw [if_pos h2]
      simp only [Bool.or_eq_true, decide_eq_true_eq] at h2
      constructor
      · intro h; exact absurd h (by simp)
      · rintro ⟨ha, hb, -⟩; omega
    · rw [if_neg h2]
      simp only [Bool.or_eq_true, decide_eq_true_eq, not_or, Nat.not_lt, Nat.not_gt_eq] at h2
      by_cases h3 : alphanumericTest code
      · rw [if_neg (by simp [h3])]
        have hall : code.data.all Char.isAlphanum = true := by
          have := h3
          unfold alphanumericTest at this
          exact (Bool.and_eq_true_iff.mp this).2
        by_cases h4 : reservedWords.contains (lowerStr code)
        · rw [if_pos h4]
          constructor
          · intro h; exact absurd h (by simp)
          · rintro ⟨-, -, -, hres⟩; rw [h4] at hres; cases hres
        · rw [if_neg h4]
          simp only [true_iff]
          exact ⟨h2.1, h2.2, hall, by simpa using h4⟩
      · rw [if_pos (by simp [h3])]
        have hnall : ¬ code.data.all Char.isAlphanum = true := by
          intro hcontra
          apply h3
          unfold alphanumericTest
          exact Bool.and_eq_true_iff.mpr ⟨by simpa using h1, hcontra⟩
        constructor
        · intro h; exact absurd h (by simp)
        · rintro ⟨-, -, hall, -⟩; exact absurd hall hnall

/-! ## Claim C9: validateValidity -/

/-- C9 counterexample: the claim says an empty input yields the default 30,
but `validateValidity` applied to the empty string fails: only `undefined`
and `null` are defaulted, and strings are never parsed. -/
theorem validateValidity_empty_string_rejected :
    validateValidity (.strVal "")
      = ⟨false, some "Validity must be an integer", none⟩ := rfl

/-- C9 (amended): `validateValidity` yields the default 30 exactly when the
input is absent (`undefined`/`null`); an integer in `[1, 43200]` succeeds
with that value; integers outside the range fail; and every string input —
empty or not, numeric or not — fails, as do non-integer numbers, because the
value must already be an integer number (no parsing is attempted). -/
theorem validateValidity_cases :
    validateValidity .absent = ⟨true, none, some 30⟩
    ∧ (∀ n : Int, 1 ≤ n → n ≤ 43200 →
        validateValidity (.intVal n) = ⟨true, none, some n⟩)
    ∧ (∀ n : Int, n < 1 ∨ 43200 < n →
        (validateValidity (.intVal n)).isValid = false)
    ∧ (∀ str : String, (validateValidity (.strVal str)).isValid = false)
    ∧ (validateValidity .nonIntNum).isValid = false := by
  refine ⟨rfl, ?_, ?_, fun _ => rfl, rfl⟩
  · intro n h1 h2
    simp only [validateValidity]
    rw [if_neg (by simp only [Bool.or_eq_true, decide_eq_true_eq]; omega)]
  · intro n h
    simp only [validateValidity]
    rw [if_pos (by simp only [Bool.or_eq_true, decide_eq_true_eq]; omega)]

theorem validateValidity_cases_witness :
    validateValidity (.intVal 30) = ⟨true, none, some 30⟩
    ∧ (validateValidity (.intVal 0)).isValid = false :=
  ⟨validateValidity_cases.2.1 30 (by decide) (by decide),
    validateValidity_cases.2.2.1 0 (Or.inl (by decide))⟩

/-! ## Claim C3: recordClick -/

/-- C3 counterexample: for an absent code the claim says `RecordClick`
returns `NotFoundError`; the source function's body has no `return`
statement, so it returns `undefined` (the `none` component) while leaving the
registry unchanged — no error is surfaced. -/
theorem recordClick_missing_silent :
    recordClick [] "abcd" sampleClick = ([], none) := rfl

/-- C3 (amended): if a record for the code is present, `recordClick` appends
exactly one `ClickEvent` at the end of that record's clicks, leaving the
record's other fields and every other record unchanged; if no record is
present it leaves all state unchanged — and in both cases it returns
`undefined` (a silent no-op), not a `NotFoundError`. -/
theorem recordClick_append_or_noop (s : Registry) (code : String) (click : ClickEvent) :
    (∀ e, mapGet s code = some e →
      mapGet (recordClick s code click).1 code = some { e with clicks := e.clicks ++ [click] }
      ∧ (∀ c, c ≠ code → mapGet (recordClick s code click).1 c = mapGet s c)
      ∧ (recordClick s code click).2 = none)
    ∧ (mapGet s code = none → recordClick s code click = (s, none)) := by
  constructor
  · intro e he
    refine ⟨?_, ?_, ?_⟩
    · simp [recordClick, he, mapGet_mapSet]
    · intro c hc
      simp [recordClick, he, mapGet_mapSet, hc]
    · simp [recordClick, he]
  · intro he
    simp [recordClick, he]

theorem recordClick_append_or_noop_witness :
    mapGet (recordClick regA "abcd" sampleClick).1 "abcd"
      = some { entryA with clicks := entryA.clicks ++ [sampleClick] }
    ∧ (∀ c, c ≠ "abcd" → mapGet (recordClick regA "abcd" sampleClick).1 c = mapGet regA c)
    ∧ (recordClick regA "abcd" sampleClick).2 = none :=
  (recordClick_append_or_noop regA "abcd" sampleClick).1 entryA rfl

/-! ## Claim C1: the redirect handler -/

/-- C1: `redirectToUrl` returns the 404 body, with the registry untouched,
when no record for the code is present; returns the 410 body — deleting
nothing and appending no click — when a record is present and
`now > expiresAt`; and otherwise issues a 302 redirect to the record's
`originalUrl` after appending exactly one `ClickEvent` to that record's
clicks, every other record unchanged. -/
theorem resolve_redirect_cases
    (geoLookup : String → Option (Option String × Option String))
    (uaParse : String → Option String × Option String)
    (s : Registry) (code : String) (now : Nat) (req : RequestInfo) :
    (mapGet s code = none →
      redirectToUrl geoLookup uaParse s code now req
        = (s, .json 404 "Not Found" "Short URL not found"))
    ∧ (∀ e, mapGet s code = some e → now > e.expiresAt →
      redirectToUrl geoLookup uaParse s code now req
        = (s, .json 410 "Gone" "Short URL has expired"))
    ∧ (∀ e, mapGet s code = some e → ¬ now > e.expiresAt →
      (redirectToUrl geoLookup uaParse s code now req).2
          = .redirect 302 e.originalUrl
      ∧ mapGet (redirectToUrl geoLookup uaParse s code now req).1 code
          = some { e with clicks := e.clicks ++ [buildClickData geoLookup uaParse now req] }
      ∧ (∀ c, c ≠ code →
          mapGet (redirectToUrl geoLookup uaParse s code now req).1 c = mapGet s c)) := by
  refine ⟨?_, ?_, ?_⟩
  · intro h
    simp [redirectToUrl, getUrl, h]
  · intro e he hx
    simp [redirectToUrl, getUrl, he, hx]
  · intro e he hx
    refine ⟨?_, ?_, ?_⟩
    · simp [redirectToUrl, getUrl, he, hx]
    · simp [redirectToUrl, getUrl, he, hx, recordClick, mapGet_mapSet]
    · intro c hc
      simp [redirectToUrl, getUrl, he, hx, recordClick, mapGet_mapSet, hc]

theorem resolve_redirect_cases_witness :
    (redirectToUrl geoNone uaNone regA "abcd" 5 reqA).2
        = .redirect 302 entryA.originalUrl
    ∧ mapGet (redirectToUrl geoNone uaNone regA "abcd" 5 reqA).1 "abcd"
        = some { entryA with clicks := entryA.clicks ++ [buildClickData geoNone uaNone 5 reqA] }
    ∧ (∀ c, c ≠ "abcd" →
        mapGet (redirectToUrl geoNone uaNone regA "abcd" 5 reqA).1 c = mapGet regA c) :=
  (resolve_redirect_cases geoNone uaNone regA "abcd" 5 reqA).2.2 entryA rfl (by decide)

/-! ## Claim C4: the statistics handler -/

/-- C4: for a present record — `getUrlStats` takes no clock, so expiry cannot
hide it — the handler answers with `totalClicks` equal to the length of the
record's clicks and the clicks themselves oldest-first in insertion order,
each projected to timestamp, referrer, location and user-agent label; for an
absent code it answers with the 404 body. -/
theorem getUrlStats_spec (s : Registry) (code : String) :
    (mapGet s code = none →
      getUrlStats s code = (s, .json 404 "Not Found" "Short URL not found"))
    ∧ (∀ e, mapGet s code = some e →
      getUrlStats s code
        = (s, .statsBody 200
            { shortcode := e.shortcode
              originalUrl := e.originalUrl
              createdAt := e.createdAt
              expiresAt := e.expiresAt
              totalClicks := e.clicks.length
              clicks := e.clicks.map projectClick })) := by
  constructor
  · intro h
    simp [getUrlStats, getUrl, h]
  · intro e he
    simp [getUrlStats, getUrl, he]

theorem getUrlStats_spec_witness :
    getUrlStats regA "abcd"
      = (regA, .statsBody 200
          { shortcode := entryA.shortcode
            originalUrl := entryA.originalUrl
            createdAt := entryA.createdAt
            expiresAt := entryA.expiresAt
            totalClicks := entryA.clicks.length
            clicks := entryA.clicks.map projectClick }) :=
  (getUrlStats_spec regA "abcd").2 entryA rfl

/-! ## Lemmas about the creation path -/

theorem validateUrl_valid_not_falsy (url : Option String)
    (h : (validateUrl url).isValid = true) : jsStrFalsy url = false := by
  by_cases hf : jsStrFalsy url
  · rw [validateUrl, if_pos hf] at h
    cases h
  · simpa using hf

/-- A valid URL's `normalizedUrl` is the trimmed raw string. -/
theorem validateUrl_valid_normalized (url : Option String)
    (h : (validateUrl url).isValid = true) :
    (validateUrl url).normalizedUrl = some (trimStr (url.getD "")) := by
  have hfal : jsStrFalsy url = false := validateUrl_valid_not_falsy url h
  rw [validateUrl, if_neg (by simp [hfal])] at h ⊢
  dsimp only [] at h ⊢
  by_cases h1 : strContainsChar (trimStr (url.getD "")) ' ' = true
  · rw [if_pos h1] at h
    exact absurd h (by simp)
  · rw [if_neg h1] at h ⊢
    rcases hp : parseUrl (trimStr (url.getD "")) with _ | ⟨protocol, hostname⟩
    · try rw [hp] at h
      simp at h
    · try rw [hp] at h
      try rw [hp]
      dsimp only [] at h ⊢
      split_ifs at h ⊢ <;> first | rfl | simp at h

/-- The custom-shortcode collision branch of `createShortUrl`. -/
theorem createShortUrl_custom_collision (s : Registry) (u sc : String)
    (v : ValidityInput) (now : Nat) (genCode port : String)
    (hu : (validateUrl (some u)).isValid = true)
    (hv : (validateValidity v).isValid = true)
    (hp : sc.isEmpty = false)
    (hsv : (validateShortcode sc).isValid = true)
    (hex : shortcodeExists s sc = true) :
    createShortUrl s ⟨some u, v, some sc⟩ now genCode port
      = (s, .json 409 "Conflict" "Shortcode already exists. Please choose a different one.") := by
  have hfal : jsStrFalsy (some u) = false := validateUrl_valid_not_falsy _ hu
  have hue : u.isEmpty = false := by simpa [jsStrFalsy] using hfal
  unfold createShortUrl
  simp [jsStrFalsy, hue, hu, hv, hp, hsv, hex]

/-- The custom-shortcode success branch of `createShortUrl`. -/
theorem createShortUrl_custom_success (s : Registry) (u sc : String)
    (v : ValidityInput) (now : Nat) (genCode port : String)
    (hu : (validateUrl (some u)).isValid = true)
    (hv : (validateValidity v).isValid = true)
    (hp : sc.isEmpty = false)
    (hsv : (validateShortcode sc).isValid = true)
    (hex : shortcodeExists s sc = false) :
    createShortUrl s ⟨some u, v, some sc⟩ now genCode port
      = (mapSet s sc
          { shortcode := sc
            originalUrl := u
            createdAt := now
            expiresAt := now + ((validateValidity v).value.getD 0).toNat * 60 * 1000
            clicks := [] },
        .created 201 ("http://localhost:" ++ port ++ "/" ++ sc)
          (now + ((validateValidity v).value.getD 0).toNat * 60 * 1000)) := by
  have hfal : jsStrFalsy (some u) = false := validateUrl_valid_not_falsy _ hu
  have hue : u.isEmpty = false := by simpa [jsStrFalsy] using hfal
  unfold createShortUrl
  simp [jsStrFalsy, hue, hu, hv, hp, hsv, hex, storeUrl]

/-! ## Claim C2: creation and shortcode collisions -/

/-- C2: for a create request with a custom shortcode that otherwise passes
validation, `createShortUrl` fails with the 409 conflict body exactly when
the code is already present in the registry, leaving the registry unchanged
on that failure; otherwise it inserts a fresh record for the code (with the
raw url, empty click list and computed expiry), leaving every other code's
record unchanged. -/
theorem create_collision_exactly (s : Registry) (u sc : String)
    (v : ValidityInput) (now : Nat) (genCode port : String)
    (hu : (validateUrl (some u)).isValid = true)
    (hv : (validateValidity v).isValid = true)
    (hp : sc.isEmpty = false)
    (hsv : (validateShortcode sc).isValid = true) :
    (shortcodeExists s sc = true →
      createShortUrl s ⟨some u, v, some sc⟩ now genCode port
        = (s, .json 409 "Conflict" "Shortcode already exists. Please choose a different one."))
    ∧ (shortcodeExists s sc = false →
      mapGet (createShortUrl s ⟨some u, v, some sc⟩ now genCode port).1 sc
          = some { shortcode := sc
                   originalUrl := u
                   createdAt := now
                   expiresAt := now + ((validateValidity v).value.getD 0).toNat * 60 * 1000
                   clicks := [] }
      ∧ (∀ c, c ≠ sc →
          mapGet (createShortUrl s ⟨some u, v, some sc⟩ now genCode port).1 c = mapGet s c)
      ∧ (createShortUrl s ⟨some u, v, some sc⟩ now genCode port).2
          = .created 201 ("http://localhost:" ++ port ++ "/" ++ sc)
              (now + ((validateValidity v).value.getD 0).toNat * 60 * 1000)) := by
  constructor
  · intro hex
    exact createShortUrl_custom_collision s u sc v now genCode port hu hv hp hsv hex
  · intro hex
    rw [createShortUrl_custom_success s u sc v now genCode port hu hv hp hsv hex]
    refine ⟨?_, ?_, rfl⟩
    · simp [mapGet_mapSet]
    · intro c hc
      simp [mapGet_mapSet, hc]

theorem create_collision_exactly_witness :
    (createShortUrl regA ⟨some "https://example.com/x", .intVal 30, some "abcd"⟩ 0 "gen" "3100"
      = (regA, .json 409 "Conflict" "Shortcode already exists. Please choose a different one."))
    ∧ mapGet (createShortUrl regA ⟨some "https://example.com/x", .intVal 30, some "wxyz"⟩ 0 "gen" "3100").1 "wxyz"
        = some { shortcode := "wxyz"
                 originalUrl := "https://example.com/x"
                 createdAt := 0
                 expiresAt := 0 + ((validateValidity (.intVal 30)).value.getD 0).toNat * 60 * 1000
                 clicks := [] } :=
  ⟨(create_collision_exactly regA "https://example.com/x" "abcd" (.intVal 30) 0 "gen" "3100"
      (by decide) (by decide) (by decide) (by decide)).1 (by decide),
   ((create_collision_exactly regA "https://example.com/x" "wxyz" (.intVal 30) 0 "gen" "3100"
      (by decide) (by decide) (by decide) (by decide)).2 (by decide)).1⟩

/-- The no-custom-shortcode success branch of `createShortUrl`: when the
request's `shortcode` field is absent or empty (JS-falsy, "not provided"),
`finalShortcode` is the generated code and a fresh record is stored for it. -/
theorem createShortUrl_generated_success (s : Registry) (u : String)
    (bsc : Option String) (v : ValidityInput) (now : Nat) (genCode port : String)
    (hu : (validateUrl (some u)).isValid = true)
    (hv : (validateValidity v).isValid = true)
    (hbsc : jsStrFalsy bsc = true) :
    createShortUrl s ⟨some u, v, bsc⟩ now genCode port
      = (mapSet s genCode
          { shortcode := genCode
            originalUrl := u
            createdAt := now
            expiresAt := now + ((validateValidity v).value.getD 0).toNat * 60 * 1000
            clicks := [] },
        .created 201 ("http://localhost:" ++ port ++ "/" ++ genCode)
          (now + ((validateValidity v).value.getD 0).toNat * 60 * 1000)) := by
  have hfal : jsStrFalsy (some u) = false := validateUrl_valid_not_falsy _ hu
  unfold createShortUrl
  simp [hfal, hu, hv, hbsc, storeUrl]

/-- Resolving a code right after its record was written redirects with 302 to
that record's `originalUrl` whenever the resolve time is not past its
expiry. -/
theorem resolve_mapSet
    (geoLookup : String → Option (Option String × Option String))
    (uaParse : String → Option String × Option String)
    (s : Registry) (k : String) (e : UrlEntry) (now2 : Nat) (req : RequestInfo)
    (hlive : ¬ now2 > e.expiresAt) :
    (redirectToUrl geoLookup uaParse (mapSet s k e) k now2 req).2
      = .redirect 302 e.originalUrl := by
  have hget : mapGet (mapSet s k e) k = some e := by simp [mapGet_mapSet]
  simp [redirectToUrl, getUrl, hget, hlive]

/-! ## Claim C5: create then resolve round-trip -/

/-- C5: for every valid triple (url, validity, shortcode), a successful
`createShortUrl` followed by `redirectToUrl` on the resulting code before
its expiry produces a 302 redirect to exactly the `originalUrl` that was
submitted. A valid triple's shortcode is either a provided, valid,
collision-free custom code — the resulting code is that code (first part) —
or absent/empty, "not provided", in which case the resulting code is the
generated one (second part). -/
theorem create_then_resolve
    (geoLookup : String → Option (Option String × Option String))
    (uaParse : String → Option String × Option String)
    (s : Registry) (u : String) (v : ValidityInput) (now : Nat)
    (genCode port : String) (now2 : Nat) (req : RequestInfo)
    (hu : (validateUrl (some u)).isValid = true)
    (hv : (validateValidity v).isValid = true)
    (hlive : ¬ now2 > now + ((validateValidity v).value.getD 0).toNat * 60 * 1000) :
    (∀ sc, sc.isEmpty = false → (validateShortcode sc).isValid = true →
      shortcodeExists s sc = false →
      (redirectToUrl geoLookup uaParse
          (createShortUrl s ⟨some u, v, some sc⟩ now genCode port).1 sc now2 req).2
        = .redirect 302 u)
    ∧ (∀ bsc, jsStrFalsy bsc = true →
      (redirectToUrl geoLookup uaParse
          (createShortUrl s ⟨some u, v, bsc⟩ now genCode port).1 genCode now2 req).2
        = .redirect 302 u) := by
  constructor
  · intro sc hp hsv hex
    rw [createShortUrl_custom_success s u sc v now genCode port hu hv hp hsv hex]
    exact resolve_mapSet geoLookup uaParse s sc _ now2 req hlive
  · intro bsc hbsc
    rw [createShortUrl_generated_success s u bsc v now genCode port hu hv hbsc]
    exact resolve_mapSet geoLookup uaParse s genCode _ now2 req hlive

theorem create_then_resolve_witness :
    (redirectToUrl geoNone uaNone
        (createShortUrl [] ⟨some "https://example.com/x", .intVal 30, some "wxyz"⟩ 0 "gen" "3100").1
        "wxyz" 1800000 reqA).2
      = .redirect 302 "https://example.com/x"
    ∧ (redirectToUrl geoNone uaNone
        (createShortUrl [] ⟨some "https://example.com/x", .intVal 30, none⟩ 0 "gen" "3100").1
        "gen" 1800000 reqA).2
      = .redirect 302 "https://example.com/x" :=
  ⟨(create_then_resolve geoNone uaNone [] "https://example.com/x" (.intVal 30) 0
      "gen" "3100" 1800000 reqA (by decide) (by decide) (by decide)).1
      "wxyz" (by decide) (by decide) (by decide),
    (create_then_resolve geoNone uaNone [] "https://example.com/x" (.intVal 30) 0
      "gen" "3100" 1800000 reqA (by decide) (by decide) (by decide)).2
      none (by decide)⟩

/-! ## Claim C10: the raw URL, not the normalized one, is stored -/

/-- C10: for every create request whose url passes validation — with or
without a custom shortcode — the stored record's `originalUrl` is the raw
submitted string itself, while the validator's discarded `normalizedUrl` is
the trimmed string; `redirectToUrl` before expiry therefore redirects to the
untrimmed raw string. -/
theorem raw_url_stored
    (geoLookup : String → Option (Option String × Option String))
    (uaParse : String → Option String × Option String)
    (s : Registry) (u : String) (v : ValidityInput) (now : Nat)
    (genCode port : String) (now2 : Nat) (req : RequestInfo)
    (hu : (validateUrl (some u)).isValid = true)
    (hv : (validateValidity v).isValid = true)
    (hlive : ¬ now2 > now + ((validateValidity v).value.getD 0).toNat * 60 * 1000) :
    (validateUrl (some u)).normalizedUrl = some (trimStr u)
    ∧ (∀ sc, sc.isEmpty = false → (validateShortcode sc).isValid = true →
        shortcodeExists s sc = false →
        mapGet (createShortUrl s ⟨some u, v, some sc⟩ now genCode port).1 sc
          = some { shortcode := sc
                   originalUrl := u
                   createdAt := now
                   expiresAt := now + ((validateValidity v).value.getD 0).toNat * 60 * 1000
                   clicks := [] }
        ∧ (redirectToUrl geoLookup uaParse
            (createShortUrl s ⟨some u, v, some sc⟩ now genCode port).1 sc now2 req).2
          = .redirect 302 u)
    ∧ (∀ bsc, jsStrFalsy bsc = true →
        mapGet (createShortUrl s ⟨some u, v, bsc⟩ now genCode port).1 genCode
          = some { shortcode := genCode
                   originalUrl := u
                   createdAt := now
                   expiresAt := now + ((validateValidity v).value.getD 0).toNat * 60 * 1000
                   clicks := [] }
        ∧ (redirectToUrl geoLookup uaParse
            (createShortUrl s ⟨some u, v, bsc⟩ now genCode port).1 genCode now2 req).2
          = .redirect 302 u) := by
  refine ⟨validateUrl_valid_normalized (some u) hu, ?_, ?_⟩
  · intro sc hp hsv hex
    rw [createShortUrl_custom_success s u sc v now genCode port hu hv hp hsv hex]
    exact ⟨by simp [mapGet_mapSet],
      resolve_mapSet geoLookup uaParse s sc _ now2 req hlive⟩
  · intro bsc hbsc
    rw [createShortUrl_generated_success s u bsc v now genCode port hu hv hbsc]
    exact ⟨by simp [mapGet_mapSet],
      resolve_mapSet geoLookup uaParse s genCode _ now2 req hlive⟩

theorem raw_url_stored_witness :
    (trimStr " https://example.com/x" ≠ " https://example.com/x")
    ∧ (validateUrl (some " https://example.com/x")).normalizedUrl
        = some (trimStr " https://example.com/x")
    ∧ (mapGet (createShortUrl [] ⟨some " https://example.com/x", .intVal 30, some "wxyz"⟩
          0 "gen" "3100").1 "wxyz"
        = some { shortcode := "wxyz"
                 originalUrl := " https://example.com/x"
                 createdAt := 0
                 expiresAt := 0 + ((validateValidity (.intVal 30)).value.getD 0).toNat * 60 * 1000
                 clicks := [] }
      ∧ (redirectToUrl geoNone uaNone
          (createShortUrl [] ⟨some " https://example.com/x", .intVal 30, some "wxyz"⟩
            0 "gen" "3100").1 "wxyz" 1800000 reqA).2
          = .redirect 302 " https://example.com/x")
    ∧ (mapGet (createShortUrl [] ⟨some " https://example.com/x", .intVal 30, none⟩
          0 "gen" "3100").1 "gen"
        = some { shortcode := "gen"
                 originalUrl := " https://example.com/x"
                 createdAt := 0
                 expiresAt := 0 + ((validateValidity (.intVal 30)).value.getD 0).toNat * 60 * 1000
                 clicks := [] }
      ∧ (redirectToUrl geoNone uaNone
          (createShortUrl [] ⟨some " https://example.com/x", .intVal 30, none⟩
            0 "gen" "3100").1 "gen" 1800000 reqA).2
          = .redirect 302 " https://example.com/x") := by
  have h := raw_url_stored geoNone uaNone [] " https://example.com/x" (.intVal 30) 0
    "gen" "3100" 1800000 reqA (by decide) (by decide) (by decide)
  exact ⟨by decide, h.1, h.2.1 "wxyz" (by decide) (by decide) (by decide),
    h.2.2 none (by decide)⟩

/-! ## Lemmas about record survival and the cleanup sweep -/

theorem mapHas_mapSet_of (s : Registry) (k : String) (v : UrlEntry) (c : String)
    (h : mapHas s c = true) : mapHas (mapSet s k v) c = true := by
  rw [mapHas_mapSet]
  simp [h]

/-- `createShortUrl` either leaves the registry alone or performs one
`mapSet`. -/
theorem createShortUrl_state (s : Registry) (body : CreateBody) (now : Nat)
    (genCode port : String) :
    (createShortUrl s body now genCode port).1 = s
    ∨ ∃ k v, (createShortUrl s body now genCode port).1 = mapSet s k v := by
  unfold createShortUrl storeUrl
  dsimp only []
  split_ifs <;> first | (left; rfl) | (right; exact ⟨_, _, rfl⟩)

/-- `recordClick` either leaves the registry alone or performs one `mapSet`. -/
theorem recordClick_state (s : Registry) (code : String) (click : ClickEvent) :
    (recordClick s code click).1 = s
    ∨ ∃ k v, (recordClick s code click).1 = mapSet s k v := by
  unfold recordClick
  cases hm : mapGet s code with
  | none => exact Or.inl rfl
  | some e => exact Or.inr ⟨code, _, rfl⟩

/-- `redirectToUrl` either leaves the registry alone or performs one
`mapSet`. -/
theorem redirectToUrl_state
    (geoLookup : String → Option (Option String × Option String))
    (uaParse : String → Option String × Option String)
    (s : Registry) (code : String) (now : Nat) (req : RequestInfo) :
    (redirectToUrl geoLookup uaParse s code now req).1 = s
    ∨ ∃ k v, (redirectToUrl geoLookup uaParse s code now req).1 = mapSet s k v := by
  unfold redirectToUrl
  cases hm : getUrl s code with
  | none => exact Or.inl rfl
  | some e =>
    dsimp only []
    by_cases hx : now > e.expiresAt
    · rw [if_pos hx]
      exact Or.inl rfl
    · rw [if_neg hx]
      exact recordClick_state s code (buildClickData geoLookup uaParse now req)

/-- `getUrlStats` never changes the registry. -/
theorem getUrlStats_state (s : Registry) (code : String) :
    (getUrlStats s code).1 = s := by
  unfold getUrlStats
  cases hm : getUrl s code <;> rfl

/-- With unique keys, `mapGet` finds exactly the member with that key. -/
theorem mapGet_of_mem_nodup (s : Registry) (c : String) (e : UrlEntry)
    (h : (s.map Prod.fst).Nodup) (hmem : (c, e) ∈ s) : mapGet s c = some e := by
  induction s with
  | nil => simp at hmem
  | cons kv rest ih =>
    obtain ⟨k0, v0⟩ := kv
    simp only [List.map_cons, List.nodup_cons] at h
    rcases List.mem_cons.mp hmem with hhead | htail
    · have hk : k0 = c := (congrArg Prod.fst hhead).symm
      have he : e = v0 := congrArg Prod.snd hhead
      rw [mapGet_cons, if_pos hk, he]
    · have hk : ¬ k0 = c := by
        intro hc
        exact h.1 (hc ▸ List.mem_map_of_mem Prod.fst htail)
      rw [mapGet_cons, if_neg hk]
      exact ih h.2 htail

/-- With unique keys, membership of a key in the expired-key list collected
by the sweep is exactly expiry of that member's record. -/
theorem sweep_keys_contains (s : Registry) (now : Nat)
    (h : (s.map Prod.fst).Nodup) (kv : String × UrlEntry) (hkv : kv ∈ s) :
    ((s.filter (fun x => decide (x.2.expiresAt < now))).map Prod.fst).contains kv.1
      = decide (kv.2.expiresAt < now) := by
  by_cases hexp : kv.2.expiresAt < now
  · simp only [hexp, decide_True]
    have hmem : kv ∈ s.filter (fun x => decide (x.2.expiresAt < now)) :=
      List.mem_filter.mpr ⟨hkv, by simp [hexp]⟩
    exact List.elem_eq_true_of_mem (List.mem_map_of_mem Prod.fst hmem)
  · simp only [hexp, decide_False]
    by_contra hcontra
    rw [Bool.not_eq_false] at hcontra
    obtain ⟨kv2, hkv2, hk⟩ := List.mem_map.mp (List.mem_of_elem_eq_true hcontra)
    obtain ⟨hkv2s, hkv2p⟩ := List.mem_filter.mp hkv2
    have hget : mapGet s kv2.1 = some kv2.2 :=
      mapGet_of_mem_nodup s kv2.1 kv2.2 h (by simpa using hkv2s)
    have he : kv.2 = kv2.2 := by
      apply mem_eq_of_mapGet s kv2.1 kv2.2 kv.2 h hget
      have hkveq : kv = (kv2.1, kv.2) := by rw [hk]
      exact hkveq ▸ hkv
    apply hexp
    rw [he]
    simpa using hkv2p

/-- The sweep is the filter dropping exactly the expired entries, and its
return value counts them. -/
theorem cleanup_spec (s : Registry) (now : Nat) (h : (s.map Prod.fst).Nodup) :
    (cleanupExpiredUrls s now).1 = s.filter (fun kv => !decide (kv.2.expiresAt < now))
    ∧ (cleanupExpiredUrls s now).2 + (cleanupExpiredUrls s now).1.length = s.length := by
  have h1 : (cleanupExpiredUrls s now).1
      = s.filter (fun kv => !decide (kv.2.expiresAt < now)) := by
    show ((s.filter (fun kv => decide (kv.2.expiresAt < now))).map Prod.fst).foldl mapDelete s
      = s.filter (fun kv => !decide (kv.2.expiresAt < now))
    rw [foldl_mapDelete_eq_filter _ s h]
    apply List.filter_congr
    intro kv hkv
    rw [sweep_keys_contains s now h kv hkv]
  refine ⟨h1, ?_⟩
  have h2 : (cleanupExpiredUrls s now).2
      = (s.filter (fun kv => decide (kv.2.expiresAt < now))).length := by
    show ((s.filter (fun kv => decide (kv.2.expiresAt < now))).map Prod.fst).length = _
    rw [List.length_map]
  rw [h1, h2]
  exact length_filter_not s (fun kv => decide (kv.2.expiresAt < now))

/-! ## Claim C6: existence is stable until the sweep -/

/-- C6: a record created for a custom code is present right after a
successful create; presence of any code survives every other operation
(creates, redirects/clicks, stats reads); and the cleanup sweep removes
exactly the records with `expiresAt` before the current time, returning the
number removed. -/
theorem exists_stable_and_sweep :
    (∀ s body now genCode port sc, body.shortcode = some sc → sc.isEmpty = false →
      (∃ link ex, (createShortUrl s body now genCode port).2
        = HttpResponse.created 201 link ex) →
      mapHas (createShortUrl s body now genCode port).1 sc = true)
    ∧ (∀ s body now genCode port c, mapHas s c = true →
        mapHas (createShortUrl s body now genCode port).1 c = true)
    ∧ (∀ geoLookup uaParse s code now req c, mapHas s c = true →
        mapHas (redirectToUrl geoLookup uaParse s code now req).1 c = true)
    ∧ (∀ s code click c, mapHas s c = true →
        mapHas (recordClick s code click).1 c = true)
    ∧ (∀ s code c, mapHas s c = true → mapHas (getUrlStats s code).1 c = true)
    ∧ (∀ s now, (s.map Prod.fst).Nodup →
        (cleanupExpiredUrls s now).1 = s.filter (fun kv => !decide (kv.2.expiresAt < now))
        ∧ (cleanupExpiredUrls s now).2 + (cleanupExpiredUrls s now).1.length = s.length) := by
  refine ⟨?_, ?_, ?_, ?_, ?_, ?_⟩
  · intro s body now genCode port sc hbsc hemp hcreated
    obtain ⟨link, ex, hresp⟩ := hcreated
    have hfalsc : jsStrFalsy (some sc) = false := by simp [jsStrFalsy, hemp]
    unfold createShortUrl storeUrl at hresp ⊢
    rw [hbsc] at hresp ⊢
    dsimp only [] at hresp ⊢
    rw [hfalsc] at hresp ⊢
    rw [if_neg (by decide : ¬ (false = true))] at hresp ⊢
    split_ifs at hresp ⊢ <;>
      first
        | (simp [mapHas_mapSet]; done)
        | (simp at hresp; done)
  · intro s body now genCode port c hc
    rcases createShortUrl_state s body now genCode port with h | ⟨k, v, h⟩ <;> rw [h]
    · exact hc
    · exact mapHas_mapSet_of s k v c hc
  · intro geoLookup uaParse s code now req c hc
    rcases redirectToUrl_state geoLookup uaParse s code now req with h | ⟨k, v, h⟩ <;> rw [h]
    · exact hc
    · exact mapHas_mapSet_of s k v c hc
  · intro s code click c hc
    rcases recordClick_state s code click with h | ⟨k, v, h⟩ <;> rw [h]
    · exact hc
    · exact mapHas_mapSet_of s k v c hc
  · intro s code c hc
    rw [getUrlStats_state s code]
    exact hc
  · intro s now hnodup
    exact cleanup_spec s now hnodup

theorem exists_stable_and_sweep_witness :
    mapHas (recordClick regB "abcd" sampleClick).1 "wxyz" = true
    ∧ ((cleanupExpiredUrls regB 1000).1
        = regB.filter (fun kv => !decide (kv.2.expiresAt < 1000))
      ∧ (cleanupExpiredUrls regB 1000).2 + (cleanupExpiredUrls regB 1000).1.length
          = regB.length) :=
  ⟨exists_stable_and_sweep.2.2.2.1 regB "abcd" sampleClick "wxyz" (by decide),
    exists_stable_and_sweep.2.2.2.2.2 regB 1000 (by decide)⟩

/-! ## Claim C7: the shortcode generator -/

theorem alphanumAlphabet_getD_isAlphanum (k : Nat) :
    (alphanumAlphabet.getD (k % 62) 'a').isAlphanum = true := by
  have hlen : alphanumAlphabet.length = 62 := by decide
  have hk : k % 62 < alphanumAlphabet.length := by
    rw [hlen]
    exact Nat.mod_lt _ (by norm_num)
  rw [List.getD_eq_getElem alphanumAlphabet 'a' hk]
  have hall : ∀ c ∈ alphanumAlphabet, c.isAlphanum = true := by decide
  exact hall _ (List.getElem_mem hk)

theorem nanoidSpec_length (draw : Nat → Nat) (call : Nat) :
    (nanoidSpec draw call).length = 6 := by
  simp [nanoidSpec, String.length]

theorem nanoidSpec_alphanum (draw : Nat → Nat) (call : Nat) :
    (nanoidSpec draw call).data.all Char.isAlphanum = true := by
  rw [List.all_eq_true]
  intro c hc
  simp only [nanoidSpec, List.mem_map, List.mem_range] at hc
  obtain ⟨j, -, rfl⟩ := hc
  exact alphanumAlphabet_getD_isAlphanum _

/-- C7: every code `generateShortcode` returns is 6 characters long over
`[a-zA-Z0-9]`, and is not present in the registry at the moment of return
(the loop only stops on a code the registry does not have). -/
theorem generateShortcode_spec (storage : Registry) (draw : Nat → Nat) :
    ∀ fuel call code, generateShortcodeAux storage draw call fuel = some code →
      code.length = 6
      ∧ code.data.all Char.isAlphanum = true
      ∧ mapHas storage code = false := by
  intro fuel
  induction fuel with
  | zero =>
    intro call code h
    exact absurd h (by simp [generateShortcodeAux])
  | succ n ih =>
    intro call code h
    simp only [generateShortcodeAux] at h
    by_cases hh : mapHas storage (nanoidSpec draw call)
    · rw [if_pos hh] at h
      exact ih (call + 1) code h
    · rw [if_neg hh] at h
      obtain rfl : nanoidSpec draw call = code := by injection h
      exact ⟨nanoidSpec_length draw call, nanoidSpec_alphanum draw call, by simpa using hh⟩

theorem generateShortcode_spec_witness :
    generateShortcodeAux [] (fun _ => 0) 0 1 = some (nanoidSpec (fun _ => 0) 0)
    ∧ ((nanoidSpec (fun _ => 0) 0).length = 6
      ∧ (nanoidSpec (fun _ => 0) 0).data.all Char.isAlphanum = true
      ∧ mapHas [] (nanoidSpec (fun _ => 0) 0) = false) :=
  ⟨by decide,
    generateShortcode_spec [] (fun _ => 0) 1 0 (nanoidSpec (fun _ => 0) 0) (by decide)⟩
